import Mathlib

/-!
Verification of the human-in-the-loop decision workflow of this repository.

The four reference node functions and the `DecisionState` record are translated
from `src/app.py` (`collect_scenario`, `model_prediction`, `human_review`,
`finalize_decision`, `build_workflow`).  The workflow engine itself
(run / pause / checkpoint / resume and its error taxonomy) is provided to
`app.py` by an external graph library and is not part of the repository's own
sources; those parts are modelled from the specification, as marked on each
definition.
-/

namespace PsyAI

/-- The state record threaded through the workflow nodes, translated from the
`DecisionState` TypedDict in `src/app.py`.  Python floats are modelled as
rationals. -/
structure DecisionState where
  scenario : String
  options : List String
  model_prediction : String
  confidence : ℚ
  human_decision : String
  human_approved : Bool
  timestamp : String
  status : String
deriving DecidableEq, Repr

/-- Result of a zero-shot-classification call, mirroring the `result` dict used
by `model_prediction` in `src/app.py`: a ranked list of labels and the matching
list of scores. -/
structure ZSCResult where
  labels : List String
  scores : List ℚ
deriving DecidableEq, Repr

/-- The external prediction collaborator: given (scenario text, candidate
options) it returns a classification result or signals failure (a raised
exception in the Python source). -/
abbrev Provider := String → List String → Except String ZSCResult

/-- Node `collect_scenario` from `src/app.py`: stamps the current time and sets
status to "scenario_collected".  The wall clock (`datetime.now()`) is passed in
as the `now` argument. -/
def collect_scenario (now : String) (state : DecisionState) : DecisionState :=
  { state with status := "scenario_collected", timestamp := now }

/-- Node `model_prediction` from `src/app.py`.  The Python code guards with
`if model and state["options"]:`; inside the try block an exception from the
provider call or from indexing an empty `labels`/`scores` list is caught and
all three written fields are overwritten with the error sentinel values, so the
net effect of every failing branch is the same error record. -/
def model_prediction (model : Option Provider) (state : DecisionState) :
    DecisionState :=
  match model with
  | some m =>
    if state.options.isEmpty then
      { state with model_prediction := "No model available",
                   confidence := 0, status := "prediction_error" }
    else
      match m state.scenario state.options with
      | .error _ =>
        { state with model_prediction := "Error in prediction",
                     confidence := 0, status := "prediction_error" }
      | .ok r =>
        match r.labels, r.scores with
        | l :: _, s :: _ =>
          { state with model_prediction := l, confidence := s,
                       status := "prediction_made" }
        | _, _ =>
          { state with model_prediction := "Error in prediction",
                       confidence := 0, status := "prediction_error" }
  | none =>
    { state with model_prediction := "No model available",
                 confidence := 0, status := "prediction_error" }

/-- Node `human_review` from `src/app.py`: the interrupt point; only sets the
status. -/
def human_review (state : DecisionState) : DecisionState :=
  { state with status := "awaiting_human_review" }

/-- Node `finalize_decision` from `src/app.py`: if `human_approved` is set the
model prediction is copied into `human_decision`, otherwise `human_decision`
is left as-is; status becomes "completed". -/
def finalize_decision (state : DecisionState) : DecisionState :=
  let state1 :=
    if state.human_approved then
      { state with human_decision := state.model_prediction }
    else state
  { state1 with status := "completed" }

/-- The partial field update supplied on resume.  In `src/app.py` the two
`update_state` call sites pass exactly `human_approved` and `human_decision`;
the spec's Scenario A passes `human_approved` alone, so both fields are
optional. -/
structure Patch where
  human_approved : Option Bool
  human_decision : Option String
deriving DecidableEq, Repr

/-- Modelled from the spec: the merge of a resume patch into the checkpointed
state ("Applies patch — a partial field update representing exactly the
human's decision (human_approved, human_decision) — to the stored state").
The merge itself is performed by the external graph library's `update_state`,
which is not part of the repository sources. -/
def applyPatch (p : Patch) (s : DecisionState) : DecisionState :=
  { s with human_approved := p.human_approved.getD s.human_approved,
           human_decision := p.human_decision.getD s.human_decision }

/-- A node function as seen by the engine: it produces a new state or raises
(the exception payload is modelled as a string). -/
abbrev NodeFn := DecisionState → Except String DecisionState

/-- Lift a pure node (as all four reference nodes are in `src/app.py`) into an
engine node function; it never raises. -/
def liftNode (f : DecisionState → DecisionState) : NodeFn :=
  fun s => .ok (f s)

/-- Modelled from the spec: the `WorkflowGraph` of §3/§4.1 (named nodes, a
successor map, an entry node and the interrupt-after set).  `next n = none`
models the edge from `n` to the terminal marker END.  The graph engine used by
`src/app.py` is an external library and is not part of the repository
sources. -/
structure WorkflowGraph where
  nodes : String → Option NodeFn
  next : String → Option String
  entry : String
  interruptAfter : String → Bool

/-- Outcome of advancing a graph from a node: the run paused after an
interrupt node (carrying the resumption cursor), reached the terminal marker,
or a node function raised (carrying the failing node and the state at the
moment of failure); `missing` covers a dangling edge and `fuelOut` exhaustion
of the step budget. -/
inductive ExecOutcome where
  | failed (node : String) (st : DecisionState)
  | missing (node : String) (st : DecisionState)
  | paused (cursor : String) (st : DecisionState)
  | finished (st : DecisionState)
  | fuelOut (node : String) (st : DecisionState)
deriving DecidableEq, Repr

/-- Modelled from the spec: the engine's node-by-node execution loop of §4.3
("repeatedly executes the current node's function on the state ... then
follows the single outgoing edge", stopping after an interrupt-after node with
cursor = that node's successor). -/
def execFrom : Nat → WorkflowGraph → String → DecisionState → ExecOutcome
  | 0, _, node, st => .fuelOut node st
  | fuel + 1, g, node, st =>
    match g.nodes node with
    | none => .missing node st
    | some f =>
      match f st with
      | .error _ => .failed node st
      | .ok st1 =>
        match g.next node with
        | none => .finished st1
        | some nxt =>
          if g.interruptAfter node then .paused nxt st1
          else execFrom fuel g nxt st1

/-- The names of the nodes actually executed by `execFrom`, in order; used to
state that a resume re-executes no pre-pause node. -/
def executedNodes : Nat → WorkflowGraph → String → DecisionState → List String
  | 0, _, _, _ => []
  | fuel + 1, g, node, st =>
    match g.nodes node with
    | none => []
    | some f =>
      match f st with
      | .error _ => [node]
      | .ok st1 =>
        match g.next node with
        | none => [node]
        | some nxt =>
          if g.interruptAfter node then [node]
          else node :: executedNodes fuel g nxt st1

/-- Modelled from the spec: the `CheckpointRecord` of §3 — version for
optimistic concurrency, paused flag, resumption cursor and the state
snapshot.  (`thread_id` is the store key.) -/
structure CheckpointRecord where
  version : Nat
  paused : Bool
  node_cursor : String
  state : DecisionState
deriving DecidableEq, Repr

/-- Modelled from the spec: the `CheckpointStore` of §4.2, a pure key-value
abstraction addressed by thread id. -/
abbrev Store := String → Option CheckpointRecord

/-- Modelled from the spec: `put(thread_id, record)` — unconditional
create-or-overwrite. -/
def Store.put (s : Store) (tid : String) (r : CheckpointRecord) : Store :=
  fun k => if k = tid then some r else s k

/-- Modelled from the spec: `delete(thread_id)` — idempotent removal. -/
def Store.delete (s : Store) (tid : String) : Store :=
  fun k => if k = tid then none else s k

/-- Modelled from the spec: the error taxonomy of §7 relevant to the engine.
`workflowNode` carries the failing node's name and the state at the moment of
failure. -/
inductive EngineError where
  | threadNotFound
  | invalidState
  | concurrentModification
  | workflowNode (node : String) (st : DecisionState)
  | unknownNode (node : String)
  | fuelExhausted
deriving DecidableEq, Repr

/-- Modelled from the spec: `update(thread_id, expected_version, mutator)` of
§4.2 — rejects with `ConcurrentModificationError` unless the stored record is
at the expected version (a record that no longer exists is not at the expected
version either; §8 requires the loser of a race, whose winner may already have
cleared the checkpoint, to receive `ConcurrentModificationError`), otherwise
persists the mutated record with version+1. -/
def Store.update (s : Store) (tid : String) (expected : Nat)
    (mu : CheckpointRecord → CheckpointRecord) : Except EngineError Store :=
  match s tid with
  | none => .error .concurrentModification
  | some r =>
    if r.version = expected then
      .ok (Store.put s tid { mu r with version := r.version + 1 })
    else .error .concurrentModification

/-- Modelled from the spec: the version assigned on pause — "version=1 or
previous+1" (§4.3). -/
def nextVersion (s : Store) (tid : String) : Nat :=
  match s tid with
  | none => 1
  | some r => r.version + 1

/-- Modelled from the spec: `run(graph, initial_state, thread_id)` of §4.3.
Executes from the entry node; on an interrupt pause it persists a paused
checkpoint via `put` and returns the state; on reaching the terminal marker
it deletes any checkpoint and returns the final state; a raising node yields
`WorkflowNodeError` and leaves the store untouched. -/
def run (g : WorkflowGraph) (fuel : Nat) (tid : String) (init : DecisionState)
    (store : Store) : Except EngineError DecisionState × Store :=
  match execFrom fuel g g.entry init with
  | .paused cursor st =>
    (.ok st, Store.put store tid ⟨nextVersion store tid, true, cursor, st⟩)
  | .finished st => (.ok st, Store.delete store tid)
  | .failed n st => (.error (.workflowNode n st), store)
  | .missing n _ => (.error (.unknownNode n), store)
  | .fuelOut _ _ => (.error .fuelExhausted, store)

/-- Modelled from the spec: the commit phase of `resume` — the patch is merged
into the checkpointed state, execution continues from `node_cursor`, and the
store write goes through the expected-version guard of `update` (§4.3); on a
terminal finish the checkpoint is cleared, on another interrupt a new paused
checkpoint is written, and on any error the store is left unchanged. -/
def resumeCommit (g : WorkflowGraph) (fuel : Nat) (tid : String)
    (ckpt : CheckpointRecord) (patch : Patch) (store : Store) :
    Except EngineError DecisionState × Store :=
  match execFrom fuel g ckpt.node_cursor (applyPatch patch ckpt.state) with
  | .finished st =>
    match Store.update store tid ckpt.version
        (fun r => { r with paused := false, state := st }) with
    | .ok s1 => (.ok st, Store.delete s1 tid)
    | .error e => (.error e, store)
  | .paused cursor st =>
    match Store.update store tid ckpt.version
        (fun r => { r with paused := true, node_cursor := cursor,
                           state := st }) with
    | .ok s1 => (.ok st, s1)
    | .error e => (.error e, store)
  | .failed n st => (.error (.workflowNode n st), store)
  | .missing n _ => (.error (.unknownNode n), store)
  | .fuelOut _ _ => (.error .fuelExhausted, store)

/-- Modelled from the spec: `resume(graph, thread_id, patch)` of §4.3 — absent
checkpoint fails with `ThreadNotFoundError`, a non-paused checkpoint with
`InvalidStateError`, otherwise the loaded record is committed. -/
def resume (g : WorkflowGraph) (fuel : Nat) (tid : String) (patch : Patch)
    (store : Store) : Except EngineError DecisionState × Store :=
  match store tid with
  | none => (.error .threadNotFound, store)
  | some c =>
    if c.paused then resumeCommit g fuel tid c patch store
    else (.error .invalidState, store)

/-- The reference four-node workflow of `build_workflow` in `src/app.py`:
collect_scenario → model_prediction → human_review → finalize_decision → END,
entry collect_scenario, interrupt-after human_review.  The prediction provider
and the wall clock are the graph's external inputs. -/
def build_workflow (m : Option Provider) (now : String) : WorkflowGraph where
  nodes := fun n =>
    if n = "collect_scenario" then some (liftNode (collect_scenario now))
    else if n = "model_prediction" then some (liftNode (model_prediction m))
    else if n = "human_review" then some (liftNode human_review)
    else if n = "finalize_decision" then some (liftNode finalize_decision)
    else none
  next := fun n =>
    if n = "collect_scenario" then some "model_prediction"
    else if n = "model_prediction" then some "human_review"
    else if n = "human_review" then some "finalize_decision"
    else none
  entry := "collect_scenario"
  interruptAfter := fun n => n = "human_review"

/-- The state in which the reference workflow pauses: the composition of the
three pre-interrupt nodes. -/
def pausedState (m : Option Provider) (now : String) (init : DecisionState) :
    DecisionState :=
  human_review (model_prediction m (collect_scenario now init))

lemma execFrom_ref_entry (m : Option Provider) (now : String)
    (init : DecisionState) :
    execFrom 5 (build_workflow m now) "collect_scenario" init =
      .paused "finalize_decision" (pausedState m now init) := rfl

lemma execFrom_ref_finalize (m : Option Provider) (now : String)
    (st : DecisionState) :
    execFrom 5 (build_workflow m now) "finalize_decision" st =
      .finished (finalize_decision st) := rfl

lemma executedNodes_ref_finalize (m : Option Provider) (now : String)
    (st : DecisionState) :
    executedNodes 5 (build_workflow m now) "finalize_decision" st =
      ["finalize_decision"] := rfl

/-- Claim C1: for every initial `DecisionState` submitted to the reference
four-node workflow, `run` halts after executing `human_review` with status
"awaiting_human_review" — the provider `m` is arbitrary, so this covers the
prediction-success and every prediction-error case — and a paused checkpoint
whose state is the returned state is persisted for the thread id. -/
theorem run_halts_awaiting_review (m : Option Provider) (now tid : String)
    (init : DecisionState) (store : Store) :
    (run (build_workflow m now) 5 tid init store).fst =
        .ok (pausedState m now init) ∧
    (pausedState m now init).status = "awaiting_human_review" ∧
    (run (build_workflow m now) 5 tid init store).snd tid =
        some ⟨nextVersion store tid, true, "finalize_decision",
              pausedState m now init⟩ := by
  have h : execFrom 5 (build_workflow m now) (build_workflow m now).entry init
      = .paused "finalize_decision" (pausedState m now init) := rfl
  refine ⟨?_, rfl, ?_⟩ <;>
    simp [run, h, Store.put]

/-- The error record written by `model_prediction` when no model or no options
are available. -/
def noModelResult (st : DecisionState) : DecisionState :=
  { st with model_prediction := "No model available", confidence := 0,
            status := "prediction_error" }

/-- The error record written by `model_prediction` when the provider call
raises or returns an invalid response. -/
def predictionFailedResult (st : DecisionState) : DecisionState :=
  { st with model_prediction := "Error in prediction", confidence := 0,
            status := "prediction_error" }

/-- Claim C2: `finalize_decision` always sets status "completed"; with
`human_approved` true it copies `model_prediction` into `human_decision`, with
`human_approved` false it leaves `human_decision` exactly as found — in
particular, after merging a resume patch `{human_approved := false,
human_decision := d}` the override `d` is preserved verbatim, and after an
approving patch the predicted option is copied. -/
theorem finalize_decision_behaviour (ps : DecisionState) (d : String)
    (hd : Option String) :
    (∀ st : DecisionState, (finalize_decision st).status = "completed") ∧
    (∀ st : DecisionState, st.human_approved = true →
      (finalize_decision st).human_decision = st.model_prediction) ∧
    (∀ st : DecisionState, st.human_approved = false →
      (finalize_decision st).human_decision = st.human_decision) ∧
    (finalize_decision (applyPatch ⟨some true, hd⟩ ps)).human_decision =
      ps.model_prediction ∧
    (finalize_decision (applyPatch ⟨some false, some d⟩ ps)).human_decision =
      d := by
  refine ⟨fun st => ?_, fun st h => ?_, fun st h => ?_, ?_, ?_⟩ <;>
    simp [finalize_decision, applyPatch, *]

/-- Claim C3: the scoring node is total (its lifted engine node never raises),
and on an empty options list, an absent model, a provider exception, or an
invalid response (empty label or score list) it returns the state with
status "prediction_error", confidence 0 and a sentinel predicted-option
value. -/
theorem model_prediction_never_raises (m : Option Provider)
    (st : DecisionState) :
    (∃ st1, liftNode (model_prediction m) st = .ok st1) ∧
    (st.options = [] → model_prediction m st = noModelResult st) ∧
    (m = none → model_prediction m st = noModelResult st) ∧
    (∀ f e, m = some f → st.options ≠ [] →
      f st.scenario st.options = .error e →
      model_prediction m st = predictionFailedResult st) ∧
    (∀ f r, m = some f → st.options ≠ [] →
      f st.scenario st.options = .ok r → (r.labels = [] ∨ r.scores = []) →
      model_prediction m st = predictionFailedResult st) := by
  refine ⟨⟨model_prediction m st, rfl⟩, fun h => ?_, fun h => ?_,
    fun f e hm hne hf => ?_, fun f r hm hne hf hinv => ?_⟩
  · cases m <;>
      simp [model_prediction, noModelResult, h]
  · subst h; simp [model_prediction, noModelResult]
  · subst hm
    simp [model_prediction, predictionFailedResult, hf,
      List.isEmpty_iff, hne]
  · subst hm
    rcases r with ⟨rl, rs⟩
    rcases hinv with h1 | h1 <;> simp only at h1 <;> subst h1
    · simp [model_prediction, List.isEmpty_iff, hne, hf,
        predictionFailedResult]
    · cases rl <;>
        simp [model_prediction, List.isEmpty_iff, hne, hf,
          predictionFailedResult]

/-- Claim C10: on an empty options list `model_prediction` never consults the
provider — the result is the same for every provider value, including none at
all — and returns the "No model available" sentinel record, a sentinel
distinct from the "Error in prediction" sentinel produced when the provider
call itself raises. -/
theorem empty_options_skips_provider (m1 m2 : Option Provider)
    (st : DecisionState) (h : st.options = []) :
    model_prediction m1 st = model_prediction m2 st ∧
    model_prediction m1 st = noModelResult st ∧
    (∀ (f : Provider) (e : String) (s2 : DecisionState), s2.options ≠ [] →
      f s2.scenario s2.options = .error e →
      (model_prediction (some f) s2).model_prediction =
        "Error in prediction") ∧
    ("No model available" : String) ≠ "Error in prediction" := by
  refine ⟨?_, ?_, fun f e s2 hne hf => ?_, by decide⟩
  · cases m1 <;> cases m2 <;> simp [model_prediction, noModelResult, h]
  · cases m1 <;> simp [model_prediction, noModelResult, h]
  · simp [model_prediction, List.isEmpty_iff, hne, hf]

/-- A concrete paused state matching the spec's Scenario A. -/
def sampleState : DecisionState :=
  { scenario := "Launch Q1 or Q2?", options := ["Q1", "Q2"],
    model_prediction := "Q1", confidence := 82 / 100, human_decision := "",
    human_approved := false, timestamp := "t0",
    status := "awaiting_human_review" }

/-- A concrete initial state with an empty options list. -/
def emptyOptionsState : DecisionState :=
  { scenario := "Launch Q1 or Q2?", options := [], model_prediction := "",
    confidence := 0, human_decision := "", human_approved := false,
    timestamp := "", status := "initialized" }

theorem finalize_decision_behaviour_witness :
    (finalize_decision
        { sampleState with human_approved := true }).human_decision =
      ({ sampleState with human_approved := true } :
        DecisionState).model_prediction ∧
    (finalize_decision
        (applyPatch ⟨some false, some "Q2"⟩ sampleState)).human_decision =
      "Q2" :=
  ⟨(finalize_decision_behaviour sampleState "Q2" none).2.1
      { sampleState with human_approved := true } rfl,
    (finalize_decision_behaviour sampleState "Q2" none).2.2.2.2⟩

theorem model_prediction_never_raises_witness :
    model_prediction none emptyOptionsState = noModelResult emptyOptionsState :=
  (model_prediction_never_raises none emptyOptionsState).2.1 rfl

theorem empty_options_skips_provider_witness :
    model_prediction none emptyOptionsState =
      model_prediction (some (fun _ _ => Except.error "down"))
        emptyOptionsState ∧
    model_prediction none emptyOptionsState =
      noModelResult emptyOptionsState := by
  have h := empty_options_skips_provider none
    (some (fun _ _ => Except.error "down")) emptyOptionsState rfl
  exact ⟨h.1, h.2.1⟩

/-- Claim C9: under the provider contract that every returned score lies in
[0,1], confidence stays in [0,1] across every node: `collect_scenario`,
`human_review` and `finalize_decision` leave confidence unchanged, and
`model_prediction` stores the provider's top score unmodified on success and
0 on every error branch. -/
theorem confidence_in_unit_interval (m : Option Provider) (now : String)
    (st : DecisionState) (h0 : 0 ≤ st.confidence) (h1 : st.confidence ≤ 1)
    (hprov : ∀ (f : Provider) (r : ZSCResult), m = some f →
      f st.scenario st.options = .ok r → ∀ q ∈ r.scores, 0 ≤ q ∧ q ≤ 1) :
    (collect_scenario now st).confidence = st.confidence ∧
    (human_review st).confidence = st.confidence ∧
    (finalize_decision st).confidence = st.confidence ∧
    (0 ≤ (collect_scenario now st).confidence ∧
      (collect_scenario now st).confidence ≤ 1) ∧
    (0 ≤ (human_review st).confidence ∧
      (human_review st).confidence ≤ 1) ∧
    (0 ≤ (finalize_decision st).confidence ∧
      (finalize_decision st).confidence ≤ 1) ∧
    (0 ≤ (model_prediction m st).confidence ∧
      (model_prediction m st).confidence ≤ 1) ∧
    (∀ (f : Provider) (r : ZSCResult) (l : String) (ls : List String)
        (q : ℚ) (qs : List ℚ), m = some f → st.options ≠ [] →
      f st.scenario st.options = .ok r → r.labels = l :: ls →
      r.scores = q :: qs → (model_prediction m st).confidence = q) ∧
    (st.options = [] ∨ m = none →
      (model_prediction m st).confidence = 0) ∧
    (∀ (f : Provider) (e : String), m = some f → st.options ≠ [] →
      f st.scenario st.options = .error e →
      (model_prediction m st).confidence = 0) ∧
    (∀ (f : Provider) (r : ZSCResult), m = some f → st.options ≠ [] →
      f st.scenario st.options = .ok r → (r.labels = [] ∨ r.scores = []) →
      (model_prediction m st).confidence = 0) := by
  have hfin : (finalize_decision st).confidence = st.confidence := by
    cases h : st.human_approved <;> simp [finalize_decision, h]
  refine ⟨rfl, rfl, hfin, ⟨h0, h1⟩, ⟨h0, h1⟩, ⟨hfin ▸ h0, hfin ▸ h1⟩,
    ?_, ?_, ?_, ?_, ?_⟩
  · cases m with
    | none => simp [model_prediction]
    | some f =>
      cases ho : st.options with
      | nil => simp [model_prediction, ho]
      | cons a as =>
        cases hr : f st.scenario st.options with
        | error e =>
          rw [ho] at hr
          simp [model_prediction, ho, hr]
        | ok r =>
          rcases r with ⟨rl, rs⟩
          cases rl with
          | nil =>
            rw [ho] at hr
            simp [model_prediction, ho, hr]
          | cons l ls =>
            cases rs with
            | nil =>
              rw [ho] at hr
              simp [model_prediction, ho, hr]
            | cons q qs =>
              have hb := hprov f ⟨l :: ls, q :: qs⟩ rfl hr q
                (List.mem_cons_self q qs)
              rw [ho] at hr
              simpa [model_prediction, ho, hr] using hb
  · intro f r l ls q qs hm hne hr hl hs
    subst hm
    rcases r with ⟨rl, rs⟩
    simp only at hl hs
    subst hl; subst hs
    simp [model_prediction, List.isEmpty_iff, hne, hr]
  · rintro (h | h)
    · cases m <;> simp [model_prediction, h]
    · subst h; simp [model_prediction]
  · intro f e hm hne hf
    subst hm
    simp [model_prediction, List.isEmpty_iff, hne, hf]
  · intro f r hm hne hf hinv
    subst hm
    rcases r with ⟨rl, rs⟩
    rcases hinv with h2 | h2 <;> simp only at h2 <;> subst h2
    · simp [model_prediction, List.isEmpty_iff, hne, hf]
    · cases rl <;> simp [model_prediction, List.isEmpty_iff, hne, hf]

theorem confidence_in_unit_interval_witness :
    0 ≤ (model_prediction none emptyOptionsState).confidence ∧
    (model_prediction none emptyOptionsState).confidence ≤ 1 :=
  (confidence_in_unit_interval none "t0" emptyOptionsState (le_refl 0)
    zero_le_one (fun f r h => Option.noConfusion h)).2.2.2.2.2.2.1

/-- The node function named `n` raises on state `st`. -/
def nodeRaises (g : WorkflowGraph) (n : String) (st : DecisionState) : Prop :=
  ∃ (f : NodeFn) (e : String), g.nodes n = some f ∧ f st = .error e

lemma execFrom_failed_raises :
    ∀ (fuel : Nat) (g : WorkflowGraph) (node : String) (st0 : DecisionState)
      (n : String) (st : DecisionState),
      execFrom fuel g node st0 = .failed n st → nodeRaises g n st := by
  intro fuel
  induction fuel with
  | zero =>
    intro g node st0 n st h
    simp [execFrom] at h
  | succ k ih =>
    intro g node st0 n st h
    simp only [execFrom] at h
    cases hg : g.nodes node with
    | none => simp [hg] at h
    | some f =>
      simp only [hg] at h
      cases hf : f st0 with
      | error e =>
        simp only [hf, ExecOutcome.failed.injEq] at h
        obtain ⟨h1, h2⟩ := h
        subst h1; subst h2
        exact ⟨f, e, hg, hf⟩
      | ok st1 =>
        simp only [hf] at h
        cases hn : g.next node with
        | none => simp [hn] at h
        | some nxt =>
          simp only [hn] at h
          by_cases hi : g.interruptAfter node = true
          · simp [hi] at h
          · rw [if_neg hi] at h
            exact ih g nxt st1 n st h

/-- Claim C5: whenever a node function raises during `run` or `resume`, the
caller receives a `workflowNode` error carrying the failing node's name and
the state at the moment of failure, and the store is returned exactly as it
was — the last successfully persisted checkpoint (if any) is untouched. -/
theorem node_exception_wrapped :
    (∀ (fuel : Nat) (g : WorkflowGraph) (tid : String) (init : DecisionState)
        (store : Store) (n : String) (st : DecisionState),
      execFrom fuel g g.entry init = .failed n st →
      run g fuel tid init store = (.error (.workflowNode n st), store) ∧
      nodeRaises g n st) ∧
    (∀ (fuel : Nat) (g : WorkflowGraph) (tid : String) (patch : Patch)
        (store : Store) (c : CheckpointRecord) (n : String)
        (st : DecisionState),
      store tid = some c → c.paused = true →
      execFrom fuel g c.node_cursor (applyPatch patch c.state) = .failed n st →
      resume g fuel tid patch store = (.error (.workflowNode n st), store) ∧
      nodeRaises g n st) := by
  constructor
  · intro fuel g tid init store n st h
    refine ⟨?_, execFrom_failed_raises fuel g g.entry init n st h⟩
    simp [run, h]
  · intro fuel g tid patch store c n st hc hp h
    refine ⟨?_, execFrom_failed_raises fuel g c.node_cursor _ n st h⟩
    simp [resume, hc, hp, resumeCommit, h]

/-- A one-node graph whose single node always raises. -/
def failNode : NodeFn := fun _ => .error "boom"

def failGraph : WorkflowGraph where
  nodes := fun n => if n = "boom" then some failNode else none
  next := fun _ => none
  entry := "boom"
  interruptAfter := fun _ => false

def pausedAtBoom : CheckpointRecord :=
  { version := 1, paused := true, node_cursor := "boom", state := sampleState }

def storeWithBoom : Store :=
  fun k => if k = "t1" then some pausedAtBoom else none

theorem node_exception_wrapped_witness :
    (run failGraph 3 "t1" sampleState (fun _ => none) =
        (.error (.workflowNode "boom" sampleState), fun _ => none) ∧
      nodeRaises failGraph "boom" sampleState) ∧
    (resume failGraph 3 "t1" ⟨some true, none⟩ storeWithBoom =
        (.error (.workflowNode "boom"
          (applyPatch ⟨some true, none⟩ sampleState)), storeWithBoom) ∧
      nodeRaises failGraph "boom"
        (applyPatch ⟨some true, none⟩ sampleState)) := by
  constructor
  · exact node_exception_wrapped.1 3 failGraph "t1" sampleState
      (fun _ => none) "boom" sampleState rfl
  · exact node_exception_wrapped.2 3 failGraph "t1" ⟨some true, none⟩
      storeWithBoom pausedAtBoom "boom"
      (applyPatch ⟨some true, none⟩ sampleState) rfl rfl rfl

lemma finalize_frame (st : DecisionState) :
    (finalize_decision st).scenario = st.scenario ∧
    (finalize_decision st).options = st.options ∧
    (finalize_decision st).model_prediction = st.model_prediction ∧
    (finalize_decision st).confidence = st.confidence ∧
    (finalize_decision st).timestamp = st.timestamp ∧
    (finalize_decision st).human_approved = st.human_approved := by
  cases h : st.human_approved <;> simp [finalize_decision, h]

/-- Claim C6: on the reference graph, resuming a thread paused with cursor
`finalize_decision` executes only that node — the executed-node trace is
exactly `["finalize_decision"]`, so no pre-pause node is re-executed — and
the fields written by the pre-pause nodes (scenario, options,
model_prediction, confidence, timestamp), which the patch cannot set, are
returned unchanged from the checkpointed state. -/
theorem resume_executes_only_from_cursor (m : Option Provider)
    (now tid : String) (patch : Patch) (store : Store) (c : CheckpointRecord)
    (hc : store tid = some c) (hp : c.paused = true)
    (hcur : c.node_cursor = "finalize_decision") :
    (resume (build_workflow m now) 5 tid patch store).fst =
      .ok (finalize_decision (applyPatch patch c.state)) ∧
    executedNodes 5 (build_workflow m now) c.node_cursor
        (applyPatch patch c.state) = ["finalize_decision"] ∧
    (finalize_decision (applyPatch patch c.state)).scenario =
      c.state.scenario ∧
    (finalize_decision (applyPatch patch c.state)).options =
      c.state.options ∧
    (finalize_decision (applyPatch patch c.state)).model_prediction =
      c.state.model_prediction ∧
    (finalize_decision (applyPatch patch c.state)).confidence =
      c.state.confidence ∧
    (finalize_decision (applyPatch patch c.state)).timestamp =
      c.state.timestamp := by
  have hfin := finalize_frame (applyPatch patch c.state)
  refine ⟨?_, ?_, hfin.1, hfin.2.1, hfin.2.2.1, hfin.2.2.2.1,
    hfin.2.2.2.2.1⟩
  · simp [resume, hc, hp, resumeCommit, hcur, execFrom_ref_finalize,
      Store.update]
  · rw [hcur, executedNodes_ref_finalize]

/-- Claim C7: a resume that reaches the terminal node clears the checkpoint
for the thread id, and a subsequent resume on the same thread id fails with
`threadNotFound` (leaving the store as it was), rather than succeeding or
silently doing nothing. -/
theorem resume_after_completion_not_found (m : Option Provider)
    (now tid : String) (p1 p2 : Patch) (store : Store) (c : CheckpointRecord)
    (hc : store tid = some c) (hp : c.paused = true)
    (hcur : c.node_cursor = "finalize_decision") :
    (resume (build_workflow m now) 5 tid p1 store).fst =
      .ok (finalize_decision (applyPatch p1 c.state)) ∧
    (resume (build_workflow m now) 5 tid p1 store).snd tid = none ∧
    resume (build_workflow m now) 5 tid p2
        ((resume (build_workflow m now) 5 tid p1 store).snd) =
      (.error .threadNotFound,
        (resume (build_workflow m now) 5 tid p1 store).snd) := by
  refine ⟨?_, ?_, ?_⟩ <;>
    simp [resume, hc, hp, resumeCommit, hcur, execFrom_ref_finalize,
      Store.update, Store.delete, Store.put]

/-- Claim C8: two resume commits racing on the same thread id with the same
expected checkpoint version (both loaded the same paused record `c`): the
first to commit succeeds, the second receives `concurrentModification` from
the expected-version guard and leaves the store exactly as the winner left it
— the human decision is never applied twice. -/
theorem concurrent_resume_version_guard (m : Option Provider)
    (now tid : String) (p1 p2 : Patch) (store : Store) (c : CheckpointRecord)
    (hc : store tid = some c) (hp : c.paused = true)
    (hcur : c.node_cursor = "finalize_decision") :
    (resumeCommit (build_workflow m now) 5 tid c p1 store).fst =
      .ok (finalize_decision (applyPatch p1 c.state)) ∧
    (resumeCommit (build_workflow m now) 5 tid c p2
        ((resumeCommit (build_workflow m now) 5 tid c p1 store).snd)).fst =
      .error .concurrentModification ∧
    (resumeCommit (build_workflow m now) 5 tid c p2
        ((resumeCommit (build_workflow m now) 5 tid c p1 store).snd)).snd =
      (resumeCommit (build_workflow m now) 5 tid c p1 store).snd := by
  refine ⟨?_, ?_, ?_⟩ <;>
    simp [resumeCommit, hcur, execFrom_ref_finalize, Store.update, hc,
      Store.delete, Store.put]

/-- A concrete paused checkpoint at the reference interrupt point. -/
def pausedCkpt : CheckpointRecord :=
  { version := 1, paused := true, node_cursor := "finalize_decision",
    state := sampleState }

def pausedStore : Store :=
  fun k => if k = "t2" then some pausedCkpt else none

theorem resume_executes_only_from_cursor_witness :
    (resume (build_workflow none "t0") 5 "t2" ⟨some false, some "Q2"⟩
        pausedStore).fst =
      .ok (finalize_decision
        (applyPatch ⟨some false, some "Q2"⟩ pausedCkpt.state)) ∧
    executedNodes 5 (build_workflow none "t0") pausedCkpt.node_cursor
        (applyPatch ⟨some false, some "Q2"⟩ pausedCkpt.state) =
      ["finalize_decision"] :=
  ⟨(resume_executes_only_from_cursor none "t0" "t2" ⟨some false, some "Q2"⟩
      pausedStore pausedCkpt rfl rfl rfl).1,
    (resume_executes_only_from_cursor none "t0" "t2" ⟨some false, some "Q2"⟩
      pausedStore pausedCkpt rfl rfl rfl).2.1⟩

theorem resume_after_completion_not_found_witness :
    (resume (build_workflow none "t0") 5 "t2" ⟨some true, none⟩
        pausedStore).snd "t2" = none ∧
    (resume (build_workflow none "t0") 5 "t2" ⟨some false, some "Q2"⟩
        ((resume (build_workflow none "t0") 5 "t2" ⟨some true, none⟩
          pausedStore).snd)).fst = .error .threadNotFound :=
  ⟨(resume_after_completion_not_found none "t0" "t2" ⟨some true, none⟩
      ⟨some false, some "Q2"⟩ pausedStore pausedCkpt rfl rfl rfl).2.1,
    congrArg Prod.fst
      (resume_after_completion_not_found none "t0" "t2" ⟨some true, none⟩
        ⟨some false, some "Q2"⟩ pausedStore pausedCkpt rfl rfl rfl).2.2⟩

theorem concurrent_resume_version_guard_witness :
    (resumeCommit (build_workflow none "t0") 5 "t2" pausedCkpt
        ⟨some true, none⟩ pausedStore).fst =
      .ok (finalize_decision
        (applyPatch ⟨some true, none⟩ pausedCkpt.state)) ∧
    (resumeCommit (build_workflow none "t0") 5 "t2" pausedCkpt
        ⟨some false, some "Q2"⟩
        ((resumeCommit (build_workflow none "t0") 5 "t2" pausedCkpt
          ⟨some true, none⟩ pausedStore).snd)).fst =
      .error .concurrentModification :=
  ⟨(concurrent_resume_version_guard none "t0" "t2" ⟨some true, none⟩
      ⟨some false, some "Q2"⟩ pausedStore pausedCkpt rfl rfl rfl).1,
    (concurrent_resume_version_guard none "t0" "t2" ⟨some true, none⟩
      ⟨some false, some "Q2"⟩ pausedStore pausedCkpt rfl rfl rfl).2.1⟩

lemma finalize_human_decision (st : DecisionState) :
    (finalize_decision st).human_decision =
      (if st.human_approved then st.model_prediction
       else st.human_decision) := by
  cases h : st.human_approved <;> simp [finalize_decision, h]

lemma model_prediction_status (m : Option Provider) (st : DecisionState) :
    (model_prediction m st).status = "prediction_made" ∨
    (model_prediction m st).status = "prediction_error" := by
  cases m with
  | none => right; rfl
  | some f =>
    cases ho : st.options with
    | nil => right; simp [model_prediction, ho]
    | cons a as =>
      cases hr : f st.scenario st.options with
      | error e =>
        right; rw [ho] at hr; simp [model_prediction, ho, hr]
      | ok r =>
        rcases r with ⟨rl, rs⟩
        rw [ho] at hr
        cases rl with
        | nil => right; simp [model_prediction, ho, hr]
        | cons l ls =>
          cases rs with
          | nil => right; simp [model_prediction, ho, hr]
          | cons q qs => left; simp [model_prediction, ho, hr]

lemma model_prediction_mem (m : Option Provider) (st : DecisionState)
    (hprov : ∀ (f : Provider) (r : ZSCResult), m = some f →
      f st.scenario st.options = .ok r → ∀ l ∈ r.labels, l ∈ st.options) :
    (model_prediction m st).model_prediction = "No model available" ∨
    (model_prediction m st).model_prediction = "Error in prediction" ∨
    (model_prediction m st).model_prediction ∈ st.options := by
  cases m with
  | none => left; rfl
  | some f =>
    cases ho : st.options with
    | nil => left; simp [model_prediction, ho]
    | cons a as =>
      cases hr : f st.scenario st.options with
      | error e =>
        right; left; rw [ho] at hr; simp [model_prediction, ho, hr]
      | ok r =>
        rcases r with ⟨rl, rs⟩
        cases rl with
        | nil =>
          right; left; rw [ho] at hr; simp [model_prediction, ho, hr]
        | cons l ls =>
          cases rs with
          | nil =>
            right; left; rw [ho] at hr; simp [model_prediction, ho, hr]
          | cons q qs =>
            right; right
            have hl := hprov f ⟨l :: ls, q :: qs⟩ rfl hr l
              (List.mem_cons_self l ls)
            rw [ho] at hr
            simpa [model_prediction, ho, hr] using hl

/-- The states produced by the operations of the reference workflow on one
thread: the three node outputs of `run` (the last of which is the state
`run` returns and checkpoints, by `execFrom_ref_entry`), the patched state
built during `resume`, and the final output of `finalize_decision`. -/
def workflowStates (m : Option Provider) (now : String)
    (init : DecisionState) (patch : Patch) : List DecisionState :=
  [collect_scenario now init,
   model_prediction m (collect_scenario now init),
   human_review (model_prediction m (collect_scenario now init)),
   applyPatch patch
     (human_review (model_prediction m (collect_scenario now init))),
   finalize_decision
     (applyPatch patch
       (human_review (model_prediction m (collect_scenario now init))))]

/-- Claim C4: under the reference caller's constraints (non-empty option
strings, a provider that picks among the candidate options, and a patch that
records the human's decision, with a non-empty override when not approving),
every state produced by the workflow's operations with status "completed" has
a non-empty `human_decision` that equals `model_prediction` when
`human_approved` is true and the human-supplied override `d` when it is
false. -/
theorem completed_implies_human_decision (m : Option Provider) (now : String)
    (init : DecisionState) (patch : Patch) (b : Bool) (d : String)
    (hopts : ∀ o ∈ init.options, o ≠ "")
    (hprov : ∀ (f : Provider) (r : ZSCResult), m = some f →
      f init.scenario init.options = .ok r → ∀ l ∈ r.labels,
        l ∈ init.options)
    (hb : patch.human_approved = some b)
    (hd : patch.human_decision = some d)
    (hov : b = false → d ≠ "") :
    ∀ s ∈ workflowStates m now init patch, s.status = "completed" →
      s.human_decision ≠ "" ∧
      (if s.human_approved then s.human_decision = s.model_prediction
       else s.human_decision = d) := by
  intro s hs hcomp
  simp only [workflowStates, List.mem_cons, List.not_mem_nil, or_false]
    at hs
  rcases hs with h | h | h | h | h
  · subst h; simp [collect_scenario] at hcomp
  · subst h
    rcases model_prediction_status m (collect_scenario now init) with
      h2 | h2 <;> rw [h2] at hcomp <;> simp at hcomp
  · subst h; simp [human_review] at hcomp
  · subst h; simp [applyPatch, human_review] at hcomp
  · subst h
    set S := applyPatch patch
      (human_review (model_prediction m (collect_scenario now init)))
      with hS
    have hap : S.human_approved = b := by
      rw [hS]; simp [applyPatch, hb]
    have hhd : S.human_decision = d := by
      rw [hS]; simp [applyPatch, hd]
    have hSm : S.model_prediction =
        (model_prediction m (collect_scenario now init)).model_prediction :=
      by rw [hS]; rfl
    have h5 := finalize_human_decision S
    have h5a : (finalize_decision S).human_approved = S.human_approved :=
      (finalize_frame S).2.2.2.2.2
    have h5m : (finalize_decision S).model_prediction = S.model_prediction :=
      (finalize_frame S).2.2.1
    cases b with
    | true =>
      rw [hap, if_pos rfl] at h5
      refine ⟨?_, ?_⟩
      · rw [h5, hSm]
        rcases model_prediction_mem m (collect_scenario now init) hprov with
          h2 | h2 | h2
        · rw [h2]; decide
        · rw [h2]; decide
        · exact hopts _ h2
      · rw [h5a, hap, if_pos rfl, h5, h5m]
    | false =>
      rw [hap, if_neg (by simp)] at h5
      refine ⟨?_, ?_⟩
      · rw [h5, hhd]; exact hov rfl
      · rw [h5a, hap, if_neg (by simp), h5, hhd]

/-- A concrete initial state for Scenario B. -/
def initQ : DecisionState :=
  { scenario := "Launch Q1 or Q2?", options := ["Q1", "Q2"],
    model_prediction := "", confidence := 0, human_decision := "",
    human_approved := false, timestamp := "", status := "initialized" }

/-- The final state of Scenario B with an absent provider and override "Q2". -/
def finalQ : DecisionState :=
  finalize_decision (applyPatch ⟨some false, some "Q2"⟩
    (human_review (model_prediction none (collect_scenario "t0" initQ))))

theorem completed_implies_human_decision_witness :
    finalQ.human_decision ≠ "" ∧
    (if finalQ.human_approved then
      finalQ.human_decision = finalQ.model_prediction
     else finalQ.human_decision = "Q2") :=
  completed_implies_human_decision none "t0" initQ ⟨some false, some "Q2"⟩
    false "Q2" (by decide) (fun f r h => Option.noConfusion h) rfl rfl
    (fun _ => by decide) finalQ (by decide) (by decide)

end PsyAI
